/-
Verification of the scoring/aggregation fragment of the StudentDrive
learning-management application (assessment grading, content-rating
aggregation, analytics rollup), shallowly embedded from:
  - src/server/routes.ts        (attempt submission and rating endpoints)
  - src/unnamed/part_000        (DatabaseStorage: rateContent, getUserAnalytics)
  - src/shared/schema.ts        (contentRatings, content tables)
Numbers are modelled exactly: JavaScript float division is modelled by
rational division (exact at the small magnitudes involved), and
`Math.round` by `fun q => Int.floor (q + 1/2)` (JS rounds half toward
positive infinity).  `NaN` results (0/0) are modelled by `Option.none`.
-/
import Mathlib

/-- JavaScript `Math.round`: nearest integer, halves toward positive
infinity; on reals this is `⌊x + 1/2⌋`. -/
def mathRound (q : ℚ) : ℤ := Int.floor (q + 1/2)

/-! ## Assessment grading (routes.ts, POST /api/assessments/:assessmentId/attempt) -/

/-- A stored assessment question; only the `correctAnswer` index is read by
the grading loop. -/
structure Question where
  correctAnswer : ℤ
deriving DecidableEq, Repr

instance : Inhabited Question := ⟨⟨0⟩⟩

/-- The grading loop of routes.ts:
`questions.forEach((question, index) => { if (answers[index] === question.correctAnswer) correctAnswers++ })`.
Iterates over the questions; a missing answer (`answers[index]` is
`undefined` in JS) is never strictly equal to a number, hence incorrect. -/
def countCorrect : List Question → List ℤ → ℕ
  | [], _ => 0
  | _ :: qs, [] => countCorrect qs []
  | q :: qs, a :: as => (if a = q.correctAnswer then 1 else 0) + countCorrect qs as

/-- `score` and `percentage` as computed by the attempt handler:
`score = correctAnswers`,
`percentage = Math.round((correctAnswers / questions.length) * 100)`.
When `questions.length = 0` JavaScript evaluates `0/0 = NaN` and
`Math.round(NaN) = NaN`; the `NaN` percentage is modelled as `none`. -/
def gradeAttempt (questions : List Question) (answers : List ℤ) : ℕ × Option ℤ :=
  let score := countCorrect questions answers
  let percentage : Option ℤ :=
    if questions.length = 0 then none
    else some (mathRound (((score : ℚ) / (questions.length : ℚ)) * 100))
  (score, percentage)

/-! ## Attempt-submission endpoint state (routes.ts + DatabaseStorage inserts) -/

/-- A stored assessment (the fields the attempt endpoint reads). -/
structure Assessment where
  id : String
  title : String
  questions : List Question
deriving DecidableEq, Repr

/-- An `assessment_attempts` row as inserted by `createAssessmentAttempt`. -/
structure AttemptRow where
  assessmentId : String
  userId : String
  answers : List ℤ
  score : ℕ
  percentage : Option ℤ
  timeSpent : ℤ
deriving DecidableEq, Repr

/-- A `user_activity` row as inserted by `createUserActivity` from the
attempt handler (`activityType: "assessment_completion"`, metadata score). -/
structure ActivityRow where
  userId : String
  activityType : String
  assessmentId : String
  scoreMeta : Option ℤ
deriving DecidableEq, Repr

/-- The slice of the store the attempt endpoint touches. -/
structure Store where
  assessments : List Assessment
  attempts : List AttemptRow
  activities : List ActivityRow
deriving DecidableEq, Repr

/-- `DatabaseStorage.getAssessmentById`: select by primary key. -/
def getAssessmentById (s : Store) (id : String) : Option Assessment :=
  s.assessments.find? (fun a => a.id == id)

/-- The POST /api/assessments/:assessmentId/attempt handler: 404 with no
write when the assessment is missing, otherwise grade, insert the attempt
row, append the activity-log row, and respond 200. -/
def submitAttempt (s : Store) (assessmentId userId : String)
    (answers : List ℤ) (timeSpent : ℤ) : ℕ × Store :=
  match getAssessmentById s assessmentId with
  | none => (404, s)
  | some a =>
    let g := gradeAttempt a.questions answers
    let s1 : Store :=
      { s with attempts :=
          s.attempts ++ [⟨assessmentId, userId, answers, g.1, g.2, timeSpent⟩] }
    let s2 : Store :=
      { s1 with activities :=
          s1.activities ++ [⟨userId, "assessment_completion", assessmentId, g.2⟩] }
    (200, s2)

/-! ## Content-rating aggregation (DatabaseStorage.rateContent, routes.ts rating endpoint) -/

/-- A `content_ratings` row (schema.ts: contentId, userId, rating, review,
createdAt). -/
structure RatingRow where
  contentId : String
  userId : String
  rating : ℤ
  review : Option String
  createdAt : ℤ
deriving DecidableEq, Repr

/-- The aggregate fields of a `content` row that `rateContent` mutates. -/
structure ContentRow where
  id : String
  rating : ℤ
  ratingCount : ℤ
deriving DecidableEq, Repr

/-- The slice of the store the rating operation touches. -/
structure RatingDB where
  contents : List ContentRow
  ratings : List RatingRow
deriving DecidableEq, Repr

/-- Whether a rating row belongs to the given (content, user) pair — the
conflict target of the upsert. -/
def samePair (cid uid : String) (x : RatingRow) : Bool :=
  x.contentId == cid && x.userId == uid

/-- The `DO UPDATE` arm of the upsert: overwrite `rating`, `review` and
`createdAt` of a row matching the conflict target, leave others alone. -/
def applyPairUpdate (cid uid : String) (rating : ℤ) (review : Option String)
    (now : ℤ) (x : RatingRow) : RatingRow :=
  if samePair cid uid x then { x with rating := rating, review := review, createdAt := now }
  else x

/-- The upsert statement of `rateContent`:
`insert(contentRatings).values({contentId, userId, rating, review}).onConflictDoUpdate({target: [contentId, userId], set: {rating, review, createdAt: new Date()}})` —
if a row for the (content, user) pair exists it is overwritten in place,
otherwise a fresh row is appended. -/
def upsertRating (l : List RatingRow) (cid uid : String) (rating : ℤ)
    (review : Option String) (now : ℤ) : List RatingRow :=
  if l.any (samePair cid uid) then l.map (applyPairUpdate cid uid rating review now)
  else l ++ [⟨cid, uid, rating, review, now⟩]

/-- `DatabaseStorage.rateContent`:
1. upsert the (contentId, userId) rating (see `upsertRating`);
2. recompute `AVG(rating)` and `COUNT(id)` over all rating rows of the
   content;
3. persist `Content.rating = Math.round(avg)`, `Content.ratingCount = count`
   (when no row exists, `AVG` is SQL NULL and `Math.round(null) = 0`). -/
def rateContent (db : RatingDB) (contentId userId : String)
    (rating : ℤ) (review : Option String) (now : ℤ) : RatingDB :=
  let ratings1 := upsertRating db.ratings contentId userId rating review now
  let rows := ratings1.filter (fun x => x.contentId == contentId)
  let cnt := rows.length
  let newRating : ℤ :=
    if cnt = 0 then 0
    else mathRound (((rows.map (fun x => x.rating)).sum : ℚ) / (cnt : ℚ))
  let contents1 := db.contents.map (fun c =>
    if c.id == contentId then { c with rating := newRating, ratingCount := (cnt : ℤ) }
    else c)
  { contents := contents1, ratings := ratings1 }

/-- The POST /api/content/:contentId/rate handler: it destructures
`{rating, review}` from the body and calls `storage.rateContent`
unconditionally — no range or presence validation is performed — then
responds 200. -/
def rateContentHandler (db : RatingDB) (contentId userId : String)
    (rating : ℤ) (review : Option String) (now : ℤ) : ℕ × RatingDB :=
  (200, rateContent db contentId userId rating review now)

/-! ## Analytics rollup (DatabaseStorage.getUserAnalytics) -/

/-- A `study_sessions` row (the fields the rollup reads). Timestamps are
milliseconds since the epoch. -/
structure StudySession where
  duration : ℤ
  createdAt : ℤ
deriving DecidableEq, Repr

/-- The fields of an `assessment_attempts` row the rollup reads. -/
structure AttemptPct where
  percentage : ℤ
deriving DecidableEq, Repr

/-- The rollup object returned by `getUserAnalytics`.
(`sessionsThisMonth`, a calendar-month count depending on the server's
time zone, is not modelled; no claim mentions it.) -/
structure Analytics where
  studyStreak : ℕ
  totalStudyTime : ℤ
  avgScore : ℤ
  bestScore : ℤ
  learningVelocity : ℚ
deriving DecidableEq, Repr

/-- Milliseconds in one day: the distance from `today` to the `yesterday`
cutoff computed by `yesterday.setDate(today.getDate() - 1)`. -/
def msPerDay : ℤ := 86400000

/-- `DatabaseStorage.getUserAnalytics` over the user's study sessions and
assessment attempts, with `now` the current time in ms:
`totalStudyTime = sessions.reduce((t, s) => t + s.duration, 0)`;
`avgScore = attempts.length > 0 ? Math.round(sum(percentage)/attempts.length) : 0`;
`bestScore = attempts.length > 0 ? Math.max(...percentages) : 0`;
`studyStreak = sessions.filter(s => s.createdAt >= yesterday).length > 0 ? 7 : 0`;
`learningVelocity = totalStudyTime > 0 ? Math.round(totalStudyTime / 60 * 10) / 10 : 0`. -/
def getUserAnalytics (sessions : List StudySession) (attempts : List AttemptPct)
    (now : ℤ) : Analytics :=
  let totalStudyTime := (sessions.map (fun s => s.duration)).sum
  let avgScore : ℤ :=
    if attempts.length > 0 then
      mathRound (((attempts.map (fun a => a.percentage)).sum : ℚ) / (attempts.length : ℚ))
    else 0
  let bestScore : ℤ :=
    if attempts.length > 0 then
      ((attempts.map (fun a => a.percentage)).maximum.getD 0)
    else 0
  let recentSessions := sessions.filter (fun s => now - msPerDay ≤ s.createdAt)
  let studyStreak : ℕ := if recentSessions.length > 0 then 7 else 0
  let learningVelocity : ℚ :=
    if totalStudyTime > 0 then (mathRound ((totalStudyTime : ℚ) / 60 * 10) : ℚ) / 10
    else 0
  { studyStreak := studyStreak, totalStudyTime := totalStudyTime,
    avgScore := avgScore, bestScore := bestScore,
    learningVelocity := learningVelocity }

/-! ## Helper lemmas: grading -/

/-- The grading loop counts exactly the indices `i < |Q|` at which an
answer exists and matches the question's correct index. -/
lemma countCorrect_eq_sum (qs : List Question) (A : List ℤ) :
    countCorrect qs A =
      ∑ i ∈ Finset.range qs.length,
        if i < A.length ∧ A.getD i 0 = (qs.getD i default).correctAnswer then 1 else 0 := by
  induction qs generalizing A with
  | nil => simp [countCorrect]
  | cons q qs ih =>
    cases A with
    | nil =>
      simp only [countCorrect, List.length_nil]
      rw [ih []]
      simp
    | cons a as =>
      simp only [countCorrect, List.length_cons]
      rw [Finset.sum_range_succ']
      simp only [List.getD_cons_succ, List.getD_cons_zero, Nat.succ_lt_succ_iff,
        Nat.zero_lt_succ, true_and]
      rw [ih as]
      omega

/-- `countCorrect` as a filtered-card over the index range. -/
lemma countCorrect_eq_card (qs : List Question) (A : List ℤ) :
    countCorrect qs A =
      ((Finset.range qs.length).filter
        (fun i => i < A.length ∧ A.getD i 0 = (qs.getD i default).correctAnswer)).card := by
  rw [countCorrect_eq_sum, Finset.card_filter]

/-- For a nonempty question list the computed percentage is
`Math.round(100 * score / n)`. -/
lemma gradeAttempt_percentage (qs : List Question) (A : List ℤ) (h : qs.length ≠ 0) :
    (gradeAttempt qs A).2 =
      some (mathRound ((100 * ((gradeAttempt qs A).1 : ℚ)) / (qs.length : ℚ))) := by
  simp only [gradeAttempt, h, if_false]
  rw [div_mul_eq_mul_div, mul_comm]

/-- Restricting the counted index range when the answer list is shorter. -/
lemma filter_range_of_le {n m : ℕ} (P : ℕ → Prop) [DecidablePred P] (h : m ≤ n) :
    (Finset.range n).filter (fun i => i < m ∧ P i) = (Finset.range m).filter P := by
  ext i
  simp only [Finset.mem_filter, Finset.mem_range]
  constructor
  · rintro ⟨_, h1, h2⟩
    exact ⟨h1, h2⟩
  · rintro ⟨h1, h2⟩
    exact ⟨lt_of_lt_of_le h1 h, h1, h2⟩

/-! ## Claim theorems: grading -/

/-- C1: for questions `Q` (length `n`) and answers `A` (length `m`), the
attempt handler computes `score` = the number of indices `i ∈ [0, n)` with
`i < m` and `A[i] = Q[i].correctAnswer`, and (for `n ≠ 0`)
`percentage = Math.round(100 * score / n)`; on questions with correct
indices `[1, 0, 2]` and answers `[1, 0, 0]` it yields score 2,
percentage 67. -/
theorem attempt_grading_spec (qs : List Question) (A : List ℤ) :
    (gradeAttempt qs A).1 =
      ((Finset.range qs.length).filter
        (fun i => i < A.length ∧ A.getD i 0 = (qs.getD i default).correctAnswer)).card
    ∧ (qs.length ≠ 0 →
        (gradeAttempt qs A).2 =
          some (mathRound ((100 * ((gradeAttempt qs A).1 : ℚ)) / (qs.length : ℚ))))
    ∧ gradeAttempt [⟨1⟩, ⟨0⟩, ⟨2⟩] [1, 0, 0] = (2, some 67) := by
  refine ⟨countCorrect_eq_card qs A, gradeAttempt_percentage qs A, ?_⟩
  simp only [gradeAttempt, countCorrect]
  norm_num [mathRound]

/-- Witness for C1 at questions `[1,0,2]`, answers `[1,0,0]`. -/
theorem attempt_grading_spec_witness :
    ([(⟨1⟩ : Question), ⟨0⟩, ⟨2⟩].length ≠ 0)
    ∧ (gradeAttempt [⟨1⟩, ⟨0⟩, ⟨2⟩] [1, 0, 0]).2 =
        some (mathRound ((100 * ((gradeAttempt [⟨1⟩, ⟨0⟩, ⟨2⟩] [1, 0, 0]).1 : ℚ)) /
          (([(⟨1⟩ : Question), ⟨0⟩, ⟨2⟩].length : ℕ) : ℚ))) :=
  ⟨by decide, (attempt_grading_spec [⟨1⟩, ⟨0⟩, ⟨2⟩] [1, 0, 0]).2.1 (by decide)⟩

/-- C3 (code behavior at the failing input): for a zero-question
assessment the handler computes `percentage = Math.round(0/0 * 100)`,
which is `NaN` (modelled `none`), not `0` as the spec requires. -/
theorem grade_zero_questions_nan :
    gradeAttempt [] [] = (0, none) ∧ (gradeAttempt [] []).2 ≠ some 0 := by
  constructor
  · rfl
  · simp [gradeAttempt]

/-- C4: when the answer list is shorter than the question list, grading is
total: positions `i ≥ m` count as incorrect (the score is the match count
over `[0, m)` alone), and the percentage denominator is the question
count `n`. -/
theorem short_answers_graded (qs : List Question) (A : List ℤ)
    (h : A.length < qs.length) :
    (gradeAttempt qs A).1 =
      ((Finset.range A.length).filter
        (fun i => A.getD i 0 = (qs.getD i default).correctAnswer)).card
    ∧ (gradeAttempt qs A).2 =
        some (mathRound ((100 * ((gradeAttempt qs A).1 : ℚ)) / (qs.length : ℚ))) := by
  constructor
  · have h1 : (gradeAttempt qs A).1 = countCorrect qs A := rfl
    rw [h1, countCorrect_eq_card,
      filter_range_of_le (fun i => A.getD i 0 = (qs.getD i default).correctAnswer) h.le]
  · exact gradeAttempt_percentage qs A (by omega)

/-- Witness for C4 at questions `[1,0]`, answers `[1]`. -/
theorem short_answers_graded_witness :
    ([(1 : ℤ)].length < [(⟨1⟩ : Question), ⟨0⟩].length)
    ∧ (gradeAttempt [⟨1⟩, ⟨0⟩] [1]).1 =
        ((Finset.range [(1 : ℤ)].length).filter
          (fun i => [(1 : ℤ)].getD i 0 =
            ([(⟨1⟩ : Question), ⟨0⟩].getD i default).correctAnswer)).card
    ∧ (gradeAttempt [⟨1⟩, ⟨0⟩] [1]).2 =
        some (mathRound ((100 * ((gradeAttempt [⟨1⟩, ⟨0⟩] [1]).1 : ℚ)) /
          (([(⟨1⟩ : Question), ⟨0⟩].length : ℕ) : ℚ))) :=
  ⟨by decide, (short_answers_graded [⟨1⟩, ⟨0⟩] [1] (by decide)).1,
    (short_answers_graded [⟨1⟩, ⟨0⟩] [1] (by decide)).2⟩

/-- C8: when the assessment id does not resolve, the attempt endpoint
responds 404 and writes nothing — the store (attempts and activity log
included) is returned unchanged. -/
theorem attempt_not_found_no_write (s : Store) (aid uid : String)
    (answers : List ℤ) (t : ℤ) (h : getAssessmentById s aid = none) :
    submitAttempt s aid uid answers t = (404, s) := by
  simp [submitAttempt, h]

/-- Witness for C8 on an empty store. -/
theorem attempt_not_found_no_write_witness :
    getAssessmentById ⟨[], [], []⟩ "a1" = none
    ∧ submitAttempt ⟨[], [], []⟩ "a1" "u1" [0] 5 = (404, ⟨[], [], []⟩) :=
  ⟨rfl, attempt_not_found_no_write ⟨[], [], []⟩ "a1" "u1" [0] 5 rfl⟩

/-! ## Helper lemmas: rating upsert and aggregation -/

/-- `samePair` unfolded to propositional equality of the key fields. -/
lemma samePair_iff (cid uid : String) (x : RatingRow) :
    samePair cid uid x = true ↔ (x.contentId = cid ∧ x.userId = uid) := by
  simp [samePair]

/-- The `DO UPDATE` arm never changes the conflict-target fields. -/
lemma applyPairUpdate_contentId (cid uid : String) (r : ℤ) (rev : Option String)
    (now : ℤ) (x : RatingRow) :
    (applyPairUpdate cid uid r rev now x).contentId = x.contentId := by
  unfold applyPairUpdate
  split <;> rfl

/-- The `DO UPDATE` arm never changes the conflict-target fields. -/
lemma applyPairUpdate_userId (cid uid : String) (r : ℤ) (rev : Option String)
    (now : ℤ) (x : RatingRow) :
    (applyPairUpdate cid uid r rev now x).userId = x.userId := by
  unfold applyPairUpdate
  split <;> rfl

/-- Key-field predicates are invariant under the `DO UPDATE` arm. -/
lemma samePair_applyPairUpdate (cid uid cid0 uid0 : String) (r : ℤ)
    (rev : Option String) (now : ℤ) (x : RatingRow) :
    samePair cid0 uid0 (applyPairUpdate cid uid r rev now x) = samePair cid0 uid0 x := by
  simp [samePair, applyPairUpdate_contentId, applyPairUpdate_userId]

/-- The upsert always leaves a row for the submitted (content, user) pair. -/
lemma upsertRating_pair_mem (l : List RatingRow) (cid uid : String) (r : ℤ)
    (rev : Option String) (now : ℤ) :
    ∃ x ∈ upsertRating l cid uid r rev now, samePair cid uid x = true := by
  unfold upsertRating
  by_cases hany : l.any (samePair cid uid)
  · obtain ⟨x, hx, hpx⟩ := List.any_eq_true.mp hany
    refine ⟨applyPairUpdate cid uid r rev now x, ?_, ?_⟩
    · simp [hany]
      exact ⟨x, hx, rfl⟩
    · rw [samePair_applyPairUpdate]
      exact hpx
  · refine ⟨⟨cid, uid, r, rev, now⟩, ?_, ?_⟩
    · simp [hany]
    · simp [samePair]

/-- After the upsert, the content's rating-row set is nonempty. -/
lemma upsertRating_filter_ne_nil (l : List RatingRow) (cid uid : String) (r : ℤ)
    (rev : Option String) (now : ℤ) :
    (upsertRating l cid uid r rev now).filter (fun x => x.contentId == cid) ≠ [] := by
  obtain ⟨x, hx, hpx⟩ := upsertRating_pair_mem l cid uid r rev now
  have hcid : x.contentId = cid := ((samePair_iff cid uid x).mp hpx).1
  have : x ∈ (upsertRating l cid uid r rev now).filter (fun x => x.contentId == cid) := by
    rw [List.mem_filter]
    exact ⟨hx, by simp [hcid]⟩
  exact List.ne_nil_of_mem this

/-- Core of `rateContent`: every content row carrying the rated id ends up
holding the exact count and rounded mean of the content's rating rows. -/
lemma rateContent_contents_spec (db : RatingDB) (cid uid : String) (r : ℤ)
    (rev : Option String) (now : ℤ) (c : ContentRow)
    (hc : c ∈ (rateContent db cid uid r rev now).contents) (hid : c.id = cid) :
    c.ratingCount = (((rateContent db cid uid r rev now).ratings.filter
        (fun x => x.contentId == cid)).length : ℤ)
    ∧ c.rating = mathRound (((((rateContent db cid uid r rev now).ratings.filter
        (fun x => x.contentId == cid)).map (fun x => x.rating)).sum : ℚ) /
        ((((rateContent db cid uid r rev now).ratings.filter
        (fun x => x.contentId == cid)).length : ℚ))) := by
  have hrows : (upsertRating db.ratings cid uid r rev now).filter
      (fun x => x.contentId == cid) ≠ [] := upsertRating_filter_ne_nil db.ratings cid uid r rev now
  have hcnt : ((upsertRating db.ratings cid uid r rev now).filter
      (fun x => x.contentId == cid)).length ≠ 0 := by
    simpa [List.length_eq_zero] using hrows
  simp only [rateContent] at hc ⊢
  rcases List.mem_map.mp hc with ⟨c0, hc0, hgc⟩
  by_cases hb : c0.id = cid
  · rw [if_pos (by simpa using hb)] at hgc
    subst hgc
    rw [if_neg hcnt]
    exact ⟨rfl, rfl⟩
  · rw [if_neg (by simpa using hb)] at hgc
    subst hgc
    exact absurd hid hb

/-! ## Claim theorems: rating aggregation -/

/-- C2: after `rateContent`, the content's stored `ratingCount` is the
exact number of its ContentRating rows and its stored `rating` is the
rounded mean of their values; on the full rating set `[4, 5, 3]` the
stored aggregates are rating 4, ratingCount 3. -/
theorem rateContent_aggregates :
    (∀ (db : RatingDB) (cid uid : String) (r : ℤ) (rev : Option String) (now : ℤ)
        (c : ContentRow), c ∈ (rateContent db cid uid r rev now).contents → c.id = cid →
      c.ratingCount = (((rateContent db cid uid r rev now).ratings.filter
          (fun x => x.contentId == cid)).length : ℤ)
      ∧ c.rating = mathRound (((((rateContent db cid uid r rev now).ratings.filter
          (fun x => x.contentId == cid)).map (fun x => x.rating)).sum : ℚ) /
          ((((rateContent db cid uid r rev now).ratings.filter
          (fun x => x.contentId == cid)).length : ℚ))))
    ∧ ((rateContent ⟨[⟨"X", 0, 0⟩], [⟨"X", "u1", 4, none, 0⟩, ⟨"X", "u2", 5, none, 0⟩]⟩
        "X" "u3" 3 none 1).contents.map (fun c => (c.rating, c.ratingCount))) = [(4, 3)] := by
  constructor
  · exact fun db cid uid r rev now c hc hid =>
      rateContent_contents_spec db cid uid r rev now c hc hid
  · simp [rateContent, upsertRating, applyPairUpdate, samePair]
    norm_num [mathRound]

/-- Witness for C2: a first rating of 4 on a previously unrated content
stores aggregates (4, 1). -/
theorem rateContent_aggregates_witness :
    ((⟨"X", 4, 1⟩ : ContentRow) ∈
        (rateContent ⟨[⟨"X", 0, 0⟩], []⟩ "X" "u" 4 none 0).contents)
    ∧ ((⟨"X", 4, 1⟩ : ContentRow).ratingCount =
        (((rateContent ⟨[⟨"X", 0, 0⟩], []⟩ "X" "u" 4 none 0).ratings.filter
          (fun x => x.contentId == "X")).length : ℤ)
      ∧ (⟨"X", 4, 1⟩ : ContentRow).rating =
        mathRound (((((rateContent ⟨[⟨"X", 0, 0⟩], []⟩ "X" "u" 4 none 0).ratings.filter
          (fun x => x.contentId == "X")).map (fun x => x.rating)).sum : ℚ) /
          ((((rateContent ⟨[⟨"X", 0, 0⟩], []⟩ "X" "u" 4 none 0).ratings.filter
          (fun x => x.contentId == "X")).length : ℚ)))) :=
  have hmem : (⟨"X", 4, 1⟩ : ContentRow) ∈
      (rateContent ⟨[⟨"X", 0, 0⟩], []⟩ "X" "u" 4 none 0).contents := by
    simp [rateContent, upsertRating, applyPairUpdate, samePair]
    norm_num [mathRound]
  ⟨hmem, rateContent_aggregates.1 ⟨[⟨"X", 0, 0⟩], []⟩ "X" "u" 4 none 0 ⟨"X", 4, 1⟩ hmem rfl⟩

/-! ## Helper lemmas: uniqueness of the (content, user) rating row -/

/-- At most one rating row per (content, user) pair: no two rows agree on
both key fields. -/
def distinctPairs (l : List RatingRow) : Prop :=
  l.Pairwise (fun a b => ¬(a.contentId = b.contentId ∧ a.userId = b.userId))

/-- The upsert preserves pairwise-distinct (content, user) keys. -/
lemma upsertRating_distinctPairs (l : List RatingRow) (cid uid : String) (r : ℤ)
    (rev : Option String) (now : ℤ) (hp : distinctPairs l) :
    distinctPairs (upsertRating l cid uid r rev now) := by
  unfold upsertRating
  by_cases hany : l.any (samePair cid uid)
  · rw [if_pos hany]
    refine List.Pairwise.map _ ?_ hp
    intro a b hab
    simpa [applyPairUpdate_contentId, applyPairUpdate_userId] using hab
  · rw [if_neg hany]
    rw [distinctPairs, List.pairwise_append]
    refine ⟨hp, by simp, ?_⟩
    intro a ha b hb
    simp only [List.mem_singleton] at hb
    subst hb
    intro hcon
    have : l.any (samePair cid uid) = true :=
      List.any_eq_true.mpr ⟨a, ha, (samePair_iff cid uid a).mpr ⟨hcon.1, hcon.2⟩⟩
    exact hany this

/-- Under pairwise-distinct keys, a (content, user) pair selects at most
one row. -/
lemma pair_filter_length_le_one (l : List RatingRow) (cid uid : String)
    (hp : distinctPairs l) :
    (l.filter (samePair cid uid)).length ≤ 1 := by
  induction l with
  | nil => simp
  | cons a l ih =>
    rw [distinctPairs, List.pairwise_cons] at hp
    obtain ⟨ha, hl⟩ := hp
    by_cases hpa : samePair cid uid a = true
    · have hnil : l.filter (samePair cid uid) = [] := by
        rw [List.filter_eq_nil_iff]
        intro x hx hpx
        obtain ⟨hc1, hu1⟩ := (samePair_iff cid uid a).mp hpa
        obtain ⟨hc2, hu2⟩ := (samePair_iff cid uid x).mp hpx
        exact ha x hx ⟨hc1.trans hc2.symm, hu1.trans hu2.symm⟩
      simp [List.filter_cons, hpa, hnil]
    · simp only [List.filter_cons, hpa, if_false]
      exact ih hl

/-- After the upsert, every row carrying the submitted pair carries the
submitted rating value. -/
lemma upsertRating_pair_row_rating (l : List RatingRow) (cid uid : String) (r : ℤ)
    (rev : Option String) (now : ℤ) (x : RatingRow)
    (hx : x ∈ upsertRating l cid uid r rev now) (hpx : samePair cid uid x = true) :
    x.rating = r := by
  unfold upsertRating at hx
  by_cases hany : l.any (samePair cid uid)
  · rw [if_pos hany] at hx
    rcases List.mem_map.mp hx with ⟨x0, hx0, hfx⟩
    by_cases hp0 : samePair cid uid x0 = true
    · subst hfx
      simp [applyPairUpdate, hp0]
    · subst hfx
      rw [samePair_applyPairUpdate] at hpx
      exact absurd hpx hp0
  · rw [if_neg hany] at hx
    rcases List.mem_append.mp hx with h | h
    · exact absurd (List.any_eq_true.mpr ⟨x, h, hpx⟩) hany
    · simp only [List.mem_singleton] at h
      subst h
      rfl

/-- After the upsert on pairwise-distinct rows, the pair selects exactly
one row and its rating is the submitted value. -/
lemma upsertRating_pair_filter (l : List RatingRow) (cid uid : String) (r : ℤ)
    (rev : Option String) (now : ℤ) (hp : distinctPairs l) :
    ((upsertRating l cid uid r rev now).filter (samePair cid uid)).map
      (fun x => x.rating) = [r] := by
  have hle := pair_filter_length_le_one (upsertRating l cid uid r rev now) cid uid
    (upsertRating_distinctPairs l cid uid r rev now hp)
  obtain ⟨x, hx, hpx⟩ := upsertRating_pair_mem l cid uid r rev now
  have hxf : x ∈ (upsertRating l cid uid r rev now).filter (samePair cid uid) :=
    List.mem_filter.mpr ⟨hx, hpx⟩
  have hlen : ((upsertRating l cid uid r rev now).filter (samePair cid uid)).length = 1 :=
    le_antisymm hle (List.length_pos.mpr (List.ne_nil_of_mem hxf))
  obtain ⟨y, hy⟩ := List.length_eq_one.mp hlen
  have hyf : y ∈ (upsertRating l cid uid r rev now).filter (samePair cid uid) := by
    rw [hy]
    simp
  have hymem := List.mem_filter.mp hyf
  rw [hy]
  simp [upsertRating_pair_row_rating l cid uid r rev now y hymem.1 hymem.2]

/-- The `DO UPDATE` arm does not change which rows a content owns. -/
lemma filter_contentId_map_applyPairUpdate (l : List RatingRow) (cid uid : String)
    (r : ℤ) (rev : Option String) (now : ℤ) (cid0 : String) :
    ((l.map (applyPairUpdate cid uid r rev now)).filter
      (fun x => x.contentId == cid0)).length
      = (l.filter (fun x => x.contentId == cid0)).length := by
  rw [List.filter_map, List.length_map]
  congr 1
  apply List.filter_congr
  intro x hx
  simp [Function.comp, applyPairUpdate_contentId]

/-- C5: the (content, user) pair keys at most one ContentRating row, and
a second submission by the same user on the same content overwrites in
place: afterwards the pair still selects exactly one row, holding the
second rating value; the content's row count — hence `ratingCount` — and
the total number of rating rows are unchanged between the two calls. -/
theorem rating_pair_unique :
    (∀ (db : RatingDB) (cid uid : String) (r : ℤ) (rev : Option String) (now : ℤ),
        distinctPairs db.ratings →
        distinctPairs (rateContent db cid uid r rev now).ratings)
    ∧ (∀ (db : RatingDB) (cid uid : String) (r1 : ℤ) (rev1 : Option String) (t1 : ℤ)
        (r2 : ℤ) (rev2 : Option String) (t2 : ℤ), distinctPairs db.ratings →
        (((rateContent (rateContent db cid uid r1 rev1 t1) cid uid r2 rev2 t2).ratings.filter
            (samePair cid uid)).map (fun x => x.rating)) = [r2]
        ∧ ((rateContent (rateContent db cid uid r1 rev1 t1) cid uid r2 rev2 t2).ratings.filter
            (fun x => x.contentId == cid)).length
          = ((rateContent db cid uid r1 rev1 t1).ratings.filter
            (fun x => x.contentId == cid)).length
        ∧ (rateContent (rateContent db cid uid r1 rev1 t1) cid uid r2 rev2 t2).ratings.length
          = (rateContent db cid uid r1 rev1 t1).ratings.length) := by
  constructor
  · intro db cid uid r rev now hp
    exact upsertRating_distinctPairs db.ratings cid uid r rev now hp
  · intro db cid uid r1 rev1 t1 r2 rev2 t2 hp
    have hp1 : distinctPairs (rateContent db cid uid r1 rev1 t1).ratings :=
      upsertRating_distinctPairs db.ratings cid uid r1 rev1 t1 hp
    have hany1 : (rateContent db cid uid r1 rev1 t1).ratings.any (samePair cid uid) = true :=
      List.any_eq_true.mpr (upsertRating_pair_mem db.ratings cid uid r1 rev1 t1)
    have hmap : (rateContent (rateContent db cid uid r1 rev1 t1) cid uid r2 rev2 t2).ratings
        = (rateContent db cid uid r1 rev1 t1).ratings.map
            (applyPairUpdate cid uid r2 rev2 t2) := by
      show upsertRating _ cid uid r2 rev2 t2 = _
      rw [upsertRating, if_pos hany1]
    refine ⟨upsertRating_pair_filter (rateContent db cid uid r1 rev1 t1).ratings
        cid uid r2 rev2 t2 hp1, ?_, ?_⟩
    · rw [hmap, filter_contentId_map_applyPairUpdate]
    · rw [hmap, List.length_map]

/-- Witness for C5: rate 4 then 5 on the same content by the same user,
starting from an empty store. -/
theorem rating_pair_unique_witness :
    distinctPairs (⟨[], []⟩ : RatingDB).ratings
    ∧ distinctPairs (rateContent ⟨[], []⟩ "X" "u" 4 none 0).ratings
    ∧ ((((rateContent (rateContent ⟨[], []⟩ "X" "u" 4 none 0) "X" "u" 5 none 1).ratings.filter
          (samePair "X" "u")).map (fun x => x.rating)) = [5]
      ∧ ((rateContent (rateContent ⟨[], []⟩ "X" "u" 4 none 0) "X" "u" 5 none 1).ratings.filter
          (fun x => x.contentId == "X")).length
        = ((rateContent ⟨[], []⟩ "X" "u" 4 none 0).ratings.filter
          (fun x => x.contentId == "X")).length
      ∧ (rateContent (rateContent ⟨[], []⟩ "X" "u" 4 none 0) "X" "u" 5 none 1).ratings.length
        = (rateContent ⟨[], []⟩ "X" "u" 4 none 0).ratings.length) :=
  have hp : distinctPairs (⟨[], []⟩ : RatingDB).ratings := List.Pairwise.nil
  ⟨hp, rating_pair_unique.1 ⟨[], []⟩ "X" "u" 4 none 0 hp,
    rating_pair_unique.2 ⟨[], []⟩ "X" "u" 4 none (0 : ℤ) 5 none 1 hp⟩

/-- C7 (code behavior at the failing input): the rating endpoint performs
no validation — an out-of-range rating value 99 is accepted (status 200),
inserted as a ContentRating row, and propagated into the content's stored
aggregates, instead of being rejected with no write. -/
theorem rate_endpoint_no_validation :
    (rateContentHandler ⟨[⟨"X", 0, 0⟩], []⟩ "X" "u" 99 none 0).1 = 200
    ∧ ((rateContentHandler ⟨[⟨"X", 0, 0⟩], []⟩ "X" "u" 99 none 0).2.ratings.map
        (fun x => x.rating)) = [99]
    ∧ ((rateContentHandler ⟨[⟨"X", 0, 0⟩], []⟩ "X" "u" 99 none 0).2.contents.map
        (fun c => (c.rating, c.ratingCount))) = [(99, 1)] := by
  refine ⟨rfl, ?_, ?_⟩
  · simp [rateContentHandler, rateContent, upsertRating, samePair]
  · simp [rateContentHandler, rateContent, upsertRating, samePair]
    norm_num [mathRound]

/-! ## Claim theorems: analytics rollup -/

/-- C6 counterexample: for attempt percentages `[80, 81]` the rollup
returns `avgScore = 81`, which is not the arithmetic mean `161/2` of the
percentages — `avgScore` is the rounded mean, not the mean. -/
theorem analytics_avgScore_not_mean :
    (getUserAnalytics [] [⟨80⟩, ⟨81⟩] 0).avgScore = 81
    ∧ ((getUserAnalytics [] [⟨80⟩, ⟨81⟩] 0).avgScore : ℚ)
        ≠ (([(⟨80⟩ : AttemptPct), ⟨81⟩].map (fun a => a.percentage)).sum : ℚ)
          / (([(⟨80⟩ : AttemptPct), ⟨81⟩].length : ℚ)) := by
  constructor
  · norm_num [getUserAnalytics, mathRound]
  · norm_num [getUserAnalytics, mathRound]

/-- C6 (amended): the rollup returns `totalStudyTime` = the sum of the
session durations, `avgScore` = `Math.round` of the mean of the attempt
percentages (for at least one attempt), and `bestScore` = their maximum;
sessions totaling 120 minutes with percentages `[80, 90, 70]` yield
(120, 80, 90). -/
theorem analytics_rollup_spec (sessions : List StudySession)
    (attempts : List AttemptPct) (now : ℤ) :
    (getUserAnalytics sessions attempts now).totalStudyTime
        = (sessions.map (fun s => s.duration)).sum
    ∧ (attempts ≠ [] →
        (getUserAnalytics sessions attempts now).avgScore
          = mathRound (((attempts.map (fun a => a.percentage)).sum : ℚ)
              / (attempts.length : ℚ))
        ∧ (getUserAnalytics sessions attempts now).bestScore
            ∈ attempts.map (fun a => a.percentage)
        ∧ ∀ p ∈ attempts.map (fun a => a.percentage),
            p ≤ (getUserAnalytics sessions attempts now).bestScore)
    ∧ ((getUserAnalytics [⟨60, 0⟩, ⟨60, 0⟩] [⟨80⟩, ⟨90⟩, ⟨70⟩] 0).totalStudyTime = 120
      ∧ (getUserAnalytics [⟨60, 0⟩, ⟨60, 0⟩] [⟨80⟩, ⟨90⟩, ⟨70⟩] 0).avgScore = 80
      ∧ (getUserAnalytics [⟨60, 0⟩, ⟨60, 0⟩] [⟨80⟩, ⟨90⟩, ⟨70⟩] 0).bestScore = 90) := by
  refine ⟨rfl, ?_, by decide, by norm_num [getUserAnalytics, mathRound], by decide⟩
  intro h
  have hpos : 0 < attempts.length := List.length_pos.mpr h
  have hbest : (getUserAnalytics sessions attempts now).bestScore
      = (attempts.map (fun a => a.percentage)).maximum.getD 0 := by
    simp only [getUserAnalytics]
    rw [if_pos hpos]
  refine ⟨?_, ?_, ?_⟩
  · simp only [getUserAnalytics]
    rw [if_pos hpos]
  · cases hm : (attempts.map (fun a => a.percentage)).maximum with
    | bot =>
      rw [List.maximum_eq_bot] at hm
      exact absurd (List.map_eq_nil_iff.mp hm) h
    | coe m =>
      rw [hbest, hm]
      exact List.maximum_mem hm
  · intro p hp
    cases hm : (attempts.map (fun a => a.percentage)).maximum with
    | bot =>
      rw [List.maximum_eq_bot] at hm
      exact absurd (List.map_eq_nil_iff.mp hm) h
    | coe m =>
      rw [hbest, hm]
      exact List.le_maximum_of_mem hp hm

/-- Witness for the amended C6 at percentages `[80, 90, 70]`. -/
theorem analytics_rollup_spec_witness :
    ([(⟨80⟩ : AttemptPct), ⟨90⟩, ⟨70⟩] ≠ ([] : List AttemptPct))
    ∧ ((getUserAnalytics [⟨60, 0⟩, ⟨60, 0⟩] [⟨80⟩, ⟨90⟩, ⟨70⟩] 0).avgScore
        = mathRound ((([(⟨80⟩ : AttemptPct), ⟨90⟩, ⟨70⟩].map (fun a => a.percentage)).sum : ℚ)
            / (([(⟨80⟩ : AttemptPct), ⟨90⟩, ⟨70⟩].length : ℚ)))
      ∧ (getUserAnalytics [⟨60, 0⟩, ⟨60, 0⟩] [⟨80⟩, ⟨90⟩, ⟨70⟩] 0).bestScore
          ∈ [(⟨80⟩ : AttemptPct), ⟨90⟩, ⟨70⟩].map (fun a => a.percentage)
      ∧ ∀ p ∈ [(⟨80⟩ : AttemptPct), ⟨90⟩, ⟨70⟩].map (fun a => a.percentage),
          p ≤ (getUserAnalytics [⟨60, 0⟩, ⟨60, 0⟩] [⟨80⟩, ⟨90⟩, ⟨70⟩] 0).bestScore) :=
  ⟨by decide,
    (analytics_rollup_spec [⟨60, 0⟩, ⟨60, 0⟩] [⟨80⟩, ⟨90⟩, ⟨70⟩] 0).2.1 (by decide)⟩

/-- C9: `studyStreak` is the fixed constant 7 exactly when some study
session's timestamp lies within the trailing 24-hour window, and 0
otherwise — a boolean-as-integer placeholder, not a consecutive-day
computation. -/
theorem studyStreak_spec (sessions : List StudySession)
    (attempts : List AttemptPct) (now : ℤ) :
    ((getUserAnalytics sessions attempts now).studyStreak = 7
      ↔ ∃ s ∈ sessions, now - msPerDay ≤ s.createdAt)
    ∧ ((getUserAnalytics sessions attempts now).studyStreak = 7
      ∨ (getUserAnalytics sessions attempts now).studyStreak = 0) := by
  have key : (0 < (sessions.filter
        (fun s => decide (now - msPerDay ≤ s.createdAt))).length)
      ↔ ∃ s ∈ sessions, now - msPerDay ≤ s.createdAt := by
    rw [List.length_pos]
    constructor
    · intro hne
      rcases List.exists_mem_of_ne_nil _ hne with ⟨x, hx⟩
      have hmf := List.mem_filter.mp hx
      exact ⟨x, hmf.1, by simpa using hmf.2⟩
    · rintro ⟨s, hs, hle⟩
      exact List.ne_nil_of_mem (List.mem_filter.mpr ⟨hs, by simpa using hle⟩)
  simp only [getUserAnalytics]
  constructor
  · split_ifs with h
    · exact iff_of_true rfl (key.mp h)
    · exact iff_of_false (by decide) (fun hex => h (key.mpr hex))
  · split_ifs <;> simp

/-- C10: with no assessment attempts the rollup returns
`avgScore = 0` and `bestScore = 0` (not a fault), and with zero total
study time it returns `learningVelocity = 0`. -/
theorem analytics_empty_defaults (sessions : List StudySession)
    (attempts : List AttemptPct) (now : ℤ) :
    (attempts = [] →
      (getUserAnalytics sessions attempts now).avgScore = 0
      ∧ (getUserAnalytics sessions attempts now).bestScore = 0)
    ∧ ((sessions.map (fun s => s.duration)).sum = 0 →
      (getUserAnalytics sessions attempts now).learningVelocity = 0) := by
  constructor
  · intro h
    subst h
    exact ⟨rfl, rfl⟩
  · intro h
    simp [getUserAnalytics, h]

/-- Witness for C10 on an empty history. -/
theorem analytics_empty_defaults_witness :
    (([] : List AttemptPct) = []
      ∧ (getUserAnalytics [] [] 0).avgScore = 0
      ∧ (getUserAnalytics [] [] 0).bestScore = 0)
    ∧ ((([] : List StudySession).map (fun s => s.duration)).sum = 0
      ∧ (getUserAnalytics [] [] 0).learningVelocity = 0) :=
  ⟨⟨rfl, (analytics_empty_defaults [] [] 0).1 rfl⟩,
    ⟨rfl, (analytics_empty_defaults [] [] 0).2 rfl⟩⟩
